import Mathlib

/-!
Verification of the realtime interview-studio audio pipeline.

The model below is a shallow embedding of the core logic of the
`InterviewSession` component (playback scheduling in the `onmessage`
callback, microphone capture gating in `onaudioprocess` / `toggleMic`,
video track swapping in `toggleScreenShare` / `stopScreenShare`,
resource teardown in `cleanup`, the `handleGoLive` guard) and of the
`WelcomeScreen` component (`handleEnter`).

Numeric audio clock values are modelled as rationals; the event loop is
modelled as a list of atomic steps: each `onmessage` invocation for an
audio chunk contributes one synchronous prefix step (the clamp of
`nextStartTime` against `ctx.currentTime`, which the code performs
before `await decodeAudioData`) and one completion step (the
`source.start` / clock-advance block after the `await`, which contains
no suspension point and is therefore a single atomic step), or a
failure step when the decode throws.
-/

namespace AhmedStudio

/-- State of the playback scheduler: the `nextStartTimeRef` clock and the
list of already-scheduled buffers as (chunk index, assigned start,
duration), in the order they were scheduled. -/
structure SchedState where
  nextStartTime : ℚ
  starts : List (ℕ × ℚ × ℚ)
deriving DecidableEq

/-- Atomic event-loop steps of the `onmessage` handler.
`arrive i now` is the synchronous prefix of the handler for chunk `i`
(executed at message arrival, when the output clock reads `now`):
`nextStartTimeRef.current = Math.max(nextStartTimeRef.current, ctx.currentTime)`.
`sched i dur now` is the post-`await` block on successful decode of
chunk `i` (duration `dur`, output clock reading `now` at that moment):
`source.start(nextStartTimeRef.current); nextStartTimeRef.current += audioBuffer.duration`.
`fail i` is the `catch` branch for chunk `i` (log and drop).
`interrupt now` is a message with `serverContent.interrupted` and no
audio payload: `nextStartTimeRef.current = 0`. -/
inductive Ev where
  | arrive (i : ℕ) (now : ℚ)
  | sched (i : ℕ) (dur : ℚ) (now : ℚ)
  | fail (i : ℕ)
  | interrupt (now : ℚ)
deriving DecidableEq

/-- Executable `Math.max` on rationals (the `Max ℚ` instance coming from
the order structure does not reduce in the kernel). -/
def qmax (a b : ℚ) : ℚ := if a ≤ b then b else a

theorem qmax_eq_max (a b : ℚ) : qmax a b = max a b := by
  unfold qmax
  rcases le_total a b with h | h
  · rw [if_pos h, max_eq_right h]
  · rcases lt_or_eq_of_le h with h2 | h2
    · rw [if_neg (not_le.mpr h2), max_eq_left h]
    · simp [h2]

theorem le_qmax_left (a b : ℚ) : a ≤ qmax a b := by
  rw [qmax_eq_max]; exact le_max_left a b

theorem qmax_le (a b c : ℚ) (h1 : a ≤ c) (h2 : b ≤ c) : qmax a b ≤ c := by
  rw [qmax_eq_max]; exact max_le h1 h2

theorem qmax_eq_left (a b : ℚ) (h : b ≤ a) : qmax a b = a := by
  rw [qmax_eq_max]; exact max_eq_left h

/-- One atomic event-loop step, as executed by the `onmessage` code. -/
def step (s : SchedState) : Ev → SchedState
  | .arrive _ now => { s with nextStartTime := qmax s.nextStartTime now }
  | .sched i dur _ =>
      { nextStartTime := s.nextStartTime + dur
        starts := s.starts ++ [(i, s.nextStartTime, dur)] }
  | .fail _ => s
  | .interrupt _ => { s with nextStartTime := 0 }

/-- Run a trace of event-loop steps from a state. -/
def run (s : SchedState) : List Ev → SchedState
  | [] => s
  | e :: es => run (step s e) es

/-- The start time assigned to chunk `i`, if it was scheduled. -/
def startOf (s : SchedState) (i : ℕ) : Option ℚ :=
  (s.starts.find? fun p => p.1 == i).map fun p => p.2.1

/-- The output clock reading carried by an event, when it has one. -/
def clockOf : Ev → Option ℚ
  | .arrive _ now => some now
  | .sched _ _ now => some now
  | .fail _ => none
  | .interrupt now => some now

/-- The clock readings along a trace never decrease, starting from `c`. -/
def clocksMonoFrom (c : ℚ) : List Ev → Bool
  | [] => true
  | e :: es =>
      match clockOf e with
      | none => clocksMonoFrom c es
      | some c2 => decide (c ≤ c2) && clocksMonoFrom c2 es

/-- Chunk indices of the `arrive` events of a trace, in trace order. -/
def arriveIndices (es : List Ev) : List ℕ :=
  es.filterMap fun e =>
    match e with
    | .arrive i _ => some i
    | _ => none

/-- Chunk indices of the completion (`sched` or `fail`) events. -/
def completionIndices (es : List Ev) : List ℕ :=
  es.filterMap fun e =>
    match e with
    | .sched i _ _ => some i
    | .fail i => some i
    | _ => none

/-- A list of naturals is strictly increasing. -/
def chainLT : List ℕ → Bool
  | [] => true
  | [_] => true
  | a :: b :: t => decide (a < b) && chainLT (b :: t)

/-- Every completion event is preceded by the arrival of its chunk;
`seen` accumulates the chunks that have arrived so far. -/
def completionsAfterArrival (seen : List ℕ) : List Ev → Bool
  | [] => true
  | .arrive i _ :: es => completionsAfterArrival (i :: seen) es
  | .sched i _ _ :: es => seen.contains i && completionsAfterArrival seen es
  | .fail i :: es => seen.contains i && completionsAfterArrival seen es
  | .interrupt _ :: es => completionsAfterArrival seen es

/-- All decoded buffer durations are positive. -/
def dursPos (es : List Ev) : Bool :=
  es.all fun e =>
    match e with
    | .sched _ d _ => decide (0 < d)
    | _ => true

/-- A trace of `onmessage` steps permitted by the event-loop model:
messages arrive in chunk order, the output clock is monotone (and
nonnegative), every decode completion follows its chunk's arrival, each
chunk arrives and completes at most once, and durations are positive. -/
def wfTrace (es : List Ev) : Bool :=
  chainLT (arriveIndices es) && clocksMonoFrom 0 es &&
  completionsAfterArrival [] es && (completionIndices es).Nodup &&
  dursPos es

/-- No `interrupt` event occurs in the trace. -/
def noInterrupt (es : List Ev) : Bool :=
  es.all fun e =>
    match e with
    | .interrupt _ => false
    | _ => true

/-- The start times a scheduler state assigned are non-decreasing in
chunk-arrival order (chunks are numbered by arrival). -/
def arrivalStartsMonotone (s : SchedState) : Prop :=
  ∀ i j si sj, i ≤ j → startOf s i = some si → startOf s j = some sj → si ≤ sj

/-- The trace of the C1 counterexample: chunks 0 and 1 both arrive
(clock 0) before either decode completes; chunk 1's decode (1 s)
completes first, then chunk 0's (1 s). -/
def c1trace : List Ev :=
  [.arrive 0 0, .arrive 1 0, .sched 1 1 0, .sched 0 1 0]

/-- Claim C1: in an event-loop-permitted interleaving with no
interruption where two decodes complete in reverse arrival order, the
`onmessage` code assigns chunk 0 (which arrived first) start time 1 and
chunk 1 start time 0, so the start times in chunk-arrival order
decrease: the claimed monotonic-scheduling invariant fails on the code
(the start is read from `nextStartTime` at decode completion, not in
chunk-arrival order, exactly the gap §9 of the spec flags). -/
theorem C1_starts_decrease_in_arrival_order :
    wfTrace c1trace = true ∧ noInterrupt c1trace = true ∧
    startOf (run ⟨0, []⟩ c1trace) 0 = some 1 ∧
    startOf (run ⟨0, []⟩ c1trace) 1 = some 0 ∧
    ¬ arrivalStartsMonotone (run ⟨0, []⟩ c1trace) := by
  have hrun : run ⟨0, []⟩ c1trace = ⟨2, [(1, 0, 1), (0, 1, 1)]⟩ := by
    simp only [run, step, c1trace]
    norm_num [qmax]
  have h0 : startOf (run ⟨0, []⟩ c1trace) 0 = some 1 := by
    rw [hrun]; simp [startOf]
  have h1 : startOf (run ⟨0, []⟩ c1trace) 1 = some 0 := by
    rw [hrun]; simp [startOf]
  refine ⟨by decide, by decide, h0, h1, ?_⟩
  intro h
  have h01 := h 0 1 1 0 (by norm_num) h0 h1
  exact absurd h01 (by norm_num)

/-- Claim C2, counterexample: with `nextStartTime = 0` and the output
clock at 5, a chunk whose decode fails is dropped (nothing scheduled)
but leaves `nextStartTime = 5 ≠ 0`: the clock is not left untouched,
because the clamp against `ctx.currentTime` runs before the `try`. -/
theorem C2_failed_decode_moves_clock :
    (run ⟨0, []⟩ [.arrive 0 5, .fail 0]).nextStartTime = 5 ∧
    (run ⟨0, []⟩ [.arrive 0 5, .fail 0]).starts = [] ∧
    (5 : ℚ) ≠ 0 := by
  refine ⟨?_, rfl, by norm_num⟩
  simp only [run, step]
  norm_num [qmax]

/-- Claim C2 as amended: when the decode of chunk `i` fails, nothing is
scheduled and `nextStartTime` afterwards equals
`max (value before) (output clock at the chunk's arrival)` — it is
unchanged exactly when it was already at least the clock reading. -/
theorem C2_failed_decode_only_clamps (n : ℚ) (l : List (ℕ × ℚ × ℚ)) (i : ℕ) (now : ℚ) :
    run ⟨n, l⟩ [.arrive i now, .fail i] = ⟨max n now, l⟩ := by
  simp [run, step, qmax_eq_max]

/-- Running a concatenated trace runs the two pieces in sequence. -/
theorem run_append (a b : List Ev) : ∀ s : SchedState, run s (a ++ b) = run (run s a) b := by
  induction a with
  | nil => intro s; rfl
  | cons e es ih => intro s; simp only [List.cons_append, run]; exact ih (step s e)

/-- A trace has a `sched` (decode-completion) event. -/
def hasSched (es : List Ev) : Bool :=
  es.any fun e =>
    match e with
    | .sched _ _ _ => true
    | _ => false

/-- Every clock reading carried by an event of the trace is at most `c`. -/
def clocksLE (c : ℚ) (es : List Ev) : Bool :=
  es.all fun e =>
    match e with
    | .arrive _ now => decide (now ≤ c)
    | .sched _ _ now => decide (now ≤ c)
    | .interrupt now => decide (now ≤ c)
    | .fail _ => true

/-- Along a trace with no decode completion whose clock readings stay
below `c`, the scheduling clock never exceeds `c` once it is below it:
arrivals only clamp it up to the (bounded) current clock, failures leave
it alone and interruptions zero it. -/
theorem nextStart_le_of_noSched (c : ℚ) :
    ∀ (es : List Ev) (s : SchedState), hasSched es = false → clocksLE c es = true →
      0 ≤ c → s.nextStartTime ≤ c → (run s es).nextStartTime ≤ c := by
  intro es
  induction es with
  | nil => intro s _ _ _ hs; exact hs
  | cons e t ih =>
      intro s hsched hclocks hc hs
      have hsched' : hasSched t = false := by
        cases e <;> simp [hasSched, List.any_cons] at hsched ⊢ <;> tauto
      have hclocks' : clocksLE c t = true := by
        cases e <;> simp [clocksLE, List.all_cons] at hclocks ⊢ <;> tauto
      cases e with
      | arrive i now =>
          have hnow : now ≤ c := by
            simp [clocksLE, List.all_cons] at hclocks; tauto
          exact ih (step s (.arrive i now)) hsched' hclocks' hc
            (by simpa [step] using qmax_le _ _ _ hs hnow)
      | sched i d now => simp [hasSched, List.any_cons] at hsched
      | fail i => exact ih (step s (.fail i)) hsched' hclocks' hc (by simpa [step] using hs)
      | interrupt now => exact ih (step s (.interrupt now)) hsched' hclocks' hc (by simpa [step] using hc)

/-- Claim C3, counterexample to the claim as stated: `nextStartTime`
is 11.2 when a barge-in signal arrives with the output clock at 10.6
(so the clock resets to 0); the next chunk arrives at clock 10.7 with
duration 0.2 s and is assigned start 10.7, which is NOT ≤ 10.6, the
clock's reading at signal arrival (the spec's own §8 example scenario). -/
theorem C3_next_start_exceeds_clock_at_signal :
    startOf (run ⟨56/5, []⟩ [.interrupt (53/5), .arrive 0 (107/10), .sched 0 (1/5) (107/10)]) 0
      = some (107/10) ∧
    ¬ ((107 : ℚ)/10 ≤ 53/5) := by
  constructor
  · have hrun : run ⟨56/5, []⟩ [.interrupt (53/5), .arrive 0 (107/10), .sched 0 (1/5) (107/10)]
        = ⟨109/10, [(0, 107/10, 1/5)]⟩ := by
      simp only [run, step]
      norm_num [qmax]
    rw [hrun]; simp [startOf]
  · norm_num

/-- Claim C3 as amended: a barge-in signal resets `nextStartTime` to 0,
and the first chunk scheduled after the signal — after any further
arrivals or decode failures whose clock readings are at most the clock
reading `nowm` at its scheduling — is assigned a start time equal to the
then-current scheduling clock, which is ≤ `nowm`, the output clock's
reading when it is scheduled (not the reading at signal arrival),
regardless of the pre-signal `nextStartTime` value `n0`. -/
theorem C3_interrupt_resets_and_bounds_next_start
    (n0 : ℚ) (l : List (ℕ × ℚ × ℚ)) (now0 : ℚ) (mids : List Ev) (i : ℕ) (d nowm : ℚ)
    (h1 : hasSched mids = false) (h2 : clocksLE nowm mids = true) (h3 : 0 ≤ nowm) :
    (step ⟨n0, l⟩ (.interrupt now0)).nextStartTime = 0 ∧
    (run ⟨n0, l⟩ ((.interrupt now0 :: mids) ++ [.sched i d nowm])).starts =
      (run ⟨n0, l⟩ (.interrupt now0 :: mids)).starts ++
        [(i, (run ⟨n0, l⟩ (.interrupt now0 :: mids)).nextStartTime, d)] ∧
    (run ⟨n0, l⟩ (.interrupt now0 :: mids)).nextStartTime ≤ nowm := by
  refine ⟨rfl, ?_, ?_⟩
  · rw [run_append]
    rfl
  · show (run (step ⟨n0, l⟩ (.interrupt now0)) mids).nextStartTime ≤ nowm
    exact nextStart_le_of_noSched nowm mids _ h1 h2 h3 (by simp [step]; exact h3)

/-- Witness for C3: pre-signal clock 11.2, signal, one arrival at 10.7,
then the decode completion at clock 10.7: the scheduled start is bounded
by 10.7. -/
theorem C3_interrupt_resets_witness :
    (step ⟨56/5, ([] : List (ℕ × ℚ × ℚ))⟩ (.interrupt (53/5))).nextStartTime = 0 ∧
    (run ⟨56/5, []⟩ ((.interrupt (53/5) :: [.arrive 0 (107/10)]) ++ [.sched 0 (1/5) (107/10)])).starts =
      (run ⟨56/5, []⟩ (.interrupt (53/5) :: [.arrive 0 (107/10)])).starts ++
        [(0, (run ⟨56/5, []⟩ (.interrupt (53/5) :: [.arrive 0 (107/10)])).nextStartTime, 1/5)] ∧
    (run ⟨56/5, []⟩ (.interrupt (53/5) :: [.arrive 0 (107/10)])).nextStartTime ≤ 107/10 :=
  C3_interrupt_resets_and_bounds_next_start (56/5) [] (53/5) [.arrive 0 (107/10)] 0 (1/5) (107/10)
    (by decide) (by simp [clocksLE]) (by norm_num)

/-- The trace of the spec's three-chunk example scenario: chunks of
durations 0.5 s, 0.3 s and 0.4 s processed sequentially with no
interruption, the output clock reading 10.0 at the first, 10.2 at the
second and `now3` at the third. -/
def c5trace (now3 : ℚ) : List Ev :=
  [.arrive 0 10, .sched 0 (1/2) 10, .arrive 1 (51/5), .sched 1 (3/10) (51/5),
   .arrive 2 now3, .sched 2 (2/5) now3]

/-- Claim C5: in the spec's example scenario (initial `nextStartTime = 0`,
clock 10.0 at the first chunk, 10.2 at the second, below 10.8 at the
third), the three buffers are assigned starts exactly 10.0, 10.5 and
10.8, `nextStartTime` ends at 11.2, and the buffers are gapless and
non-overlapping: each start equals the previous start plus its duration. -/
theorem C5_example_scenario (now3 : ℚ) (h : now3 < 54/5) :
    run ⟨0, []⟩ (c5trace now3) = ⟨56/5, [(0, 10, 1/2), (1, 21/2, 3/10), (2, 54/5, 2/5)]⟩ ∧
    (10 : ℚ) + 1/2 = 21/2 ∧ (21 : ℚ)/2 + 3/10 = 54/5 ∧ (54 : ℚ)/5 + 2/5 = 56/5 := by
  refine ⟨?_, by norm_num, by norm_num, by norm_num⟩
  have e1 : qmax (0 : ℚ) 10 = 10 := by norm_num [qmax]
  have e2 : qmax ((10 : ℚ) + 1/2) (51/5) = 21/2 := by norm_num [qmax]
  have e3 : (21 : ℚ)/2 + 3/10 = 54/5 := by norm_num
  have e4 : qmax (54/5) now3 = 54/5 := qmax_eq_left _ _ h.le
  simp only [run, step, c5trace]
  rw [e1, e2, e3, e4]
  norm_num

/-- Witness for C5 at the concrete third-chunk clock reading 10.5. -/
theorem C5_example_scenario_witness :
    run ⟨0, []⟩ (c5trace (21/2)) = ⟨56/5, [(0, 10, 1/2), (1, 21/2, 3/10), (2, 54/5, 2/5)]⟩ ∧
    (10 : ℚ) + 1/2 = 21/2 ∧ (21 : ℚ)/2 + 3/10 = 54/5 ∧ (54 : ℚ)/5 + 2/5 = 56/5 :=
  C5_example_scenario (21/2) (by norm_num)

/-- Modelled from the spec: `createBlob` lives in
`services/audioUtils.ts`, which is not among the provided sources; §4.1
of the spec gives its sample conversion as
`round(clamp(s, -1, 1) * 32767)` per sample (the little-endian packing
and base-64 text step are kept abstract: a chunk is its sample list). -/
def createBlob (frame : List ℚ) : List ℤ :=
  frame.map fun s => round (max (-1) (min 1 s) * 32767)

/-- Capture-path state of the `InterviewSession` component.
`isMicOn` is the live React state value, `capturedMicOn` is the value of
`isMicOn` captured by the `onaudioprocess` closure when it was installed
in the `onopen` callback (`none` before the handler exists),
`trackEnabled` is the `enabled` flag of the microphone's audio track and
`sessionHeld`/`streamHeld` record whether `sessionRef.current` /
`mediaStreamRef.current` are non-null. -/
structure CaptureState where
  isMicOn : Bool
  capturedMicOn : Option Bool
  trackEnabled : Bool
  streamHeld : Bool
  sessionHeld : Bool
deriving DecidableEq

/-- The `onopen` callback: installs the `onaudioprocess` handler, whose
closure captures the current `isMicOn` value once and for all. -/
def onopen (s : CaptureState) : CaptureState :=
  { s with capturedMicOn := some s.isMicOn }

/-- The `toggleMic` handler: when the media stream exists, sets every
audio track's `enabled` to `!isMicOn` and flips the `isMicOn` state.
The installed `onaudioprocess` closure is not reinstalled, so its
captured `isMicOn` is unchanged. -/
def toggleMic (s : CaptureState) : CaptureState :=
  if s.streamHeld then
    { s with trackEnabled := !s.isMicOn, isMicOn := !s.isMicOn }
  else s

/-- The `onaudioprocess` handler for one microphone frame: returns the
`EncodedChunk` submitted to `sendRealtimeInput`, or `none` when the
frame is dropped. The mute guard `if (!isMicOn) return` reads the
closure's captured value; a disabled audio track delivers silent
samples; the send only happens when `sessionRef.current` is non-null. -/
def onaudioprocess (s : CaptureState) (frame : List ℚ) : Option (List ℤ) :=
  match s.capturedMicOn with
  | none => none
  | some cap =>
      if !cap then none
      else if s.sessionHeld then
        some (createBlob (if s.trackEnabled then frame else frame.map fun _ => 0))
      else none

/-- The C4 failing state: session initialized with the mic on, `onopen`
fired (capturing `isMicOn = true`), then `toggleMic` pressed once. -/
def c4muted : CaptureState :=
  toggleMic (onopen ⟨true, none, true, true, true⟩)

/-- Claim C4: after muting (one `toggleMic` from the initial mic-on
state), the session is muted (`isMicOn = false`) and the microphone
track is disabled, yet processing a frame still produces an
EncodedChunk — a silent one — because the mute guard in
`onaudioprocess` reads the stale `isMicOn` captured at `onopen`
(still `true`): the capture path does not produce zero chunks while
muted, contradicting the claim and the code's own `// Mute logic`
comment. -/
theorem C4_muted_session_still_emits :
    c4muted.isMicOn = false ∧ c4muted.trackEnabled = false ∧
    c4muted.capturedMicOn = some true ∧
    onaudioprocess c4muted [1/2, -1/2] = some [0, 0] := by
  refine ⟨rfl, rfl, rfl, ?_⟩
  show some (createBlob [0, 0]) = some [0, 0]
  norm_num [createBlob]

/-- A media track as held in a `MediaStream`: its identity, whether it
is live (not stopped) and its `enabled` flag. -/
structure Track where
  id : ℕ
  live : Bool
  enabled : Bool
deriving DecidableEq

/-- The shared device set: the audio tracks and video tracks of
`mediaStreamRef.current`, plus the `isScreenSharing` React state. -/
structure DeviceSet where
  audioTracks : List Track
  videoTracks : List Track
  screenSharing : Bool
deriving DecidableEq

/-- The `stopScreenShare` handler. `acq` is the outcome of
`getUserMedia` (`none` when it throws: the `catch` leaves everything
unchanged); `refs` is whether `mediaStreamRef.current && videoRef.current`
are non-null. On success with the refs present, the current video track
(head of the list) is stopped and removed, the fresh camera track is
added, and `isScreenSharing` is set to `false`; with no current video
track the `currentVideoTrack.stop()` call throws and the `catch`
swallows it before any mutation. Audio tracks are never touched. -/
def stopScreenShare (s : DeviceSet) (acq : Option Track) (refs : Bool) : DeviceSet :=
  match acq with
  | none => s
  | some t =>
      if refs then
        match s.videoTracks with
        | [] => s
        | _ :: rest => { s with videoTracks := rest ++ [t], screenSharing := false }
      else { s with screenSharing := false }

/-- The `toggleScreenShare` handler. When not sharing, `acq` is the
outcome of `getDisplayMedia`; on success with the refs present the
current camera track (head) is stopped and removed and the screen track
added, then `isScreenSharing` is set to `true`. When already sharing it
delegates to `stopScreenShare` (there `acq` is the `getUserMedia`
outcome). Audio tracks are never touched. -/
def toggleScreenShare (s : DeviceSet) (acq : Option Track) (refs : Bool) : DeviceSet :=
  if s.screenSharing then stopScreenShare s acq refs
  else
    match acq with
    | none => s
    | some t =>
        if refs then
          match s.videoTracks with
          | [] => s
          | _ :: rest => { s with videoTracks := rest ++ [t], screenSharing := true }
        else { s with screenSharing := true }

/-- Claim C6: neither video-swap transition ever touches the audio
tracks: for every device set, every acquisition outcome (success or
failure) and every refs configuration, the audio track list — each
track's identity, live flag and enabled flag — is identical before and
after `toggleScreenShare` and before and after `stopScreenShare`. -/
theorem C6_swaps_never_touch_audio (s : DeviceSet) (acq : Option Track) (refs : Bool) :
    (toggleScreenShare s acq refs).audioTracks = s.audioTracks ∧
    (stopScreenShare s acq refs).audioTracks = s.audioTracks := by
  constructor
  · unfold toggleScreenShare stopScreenShare
    rcases acq with _ | t
    · cases s.screenSharing <;> rfl
    · cases s.screenSharing <;> cases refs <;>
        rcases hv : s.videoTracks with _ | ⟨v, rest⟩ <;> simp [hv]
  · unfold stopScreenShare
    rcases acq with _ | t
    · rfl
    · cases refs <;> rcases hv : s.videoTracks with _ | ⟨v, rest⟩ <;> simp [hv]

/-- Claim C7: if acquisition of the new video track fails
(`getDisplayMedia` in `toggleScreenShare`, `getUserMedia` in
`stopScreenShare` throws, modelled by `acq = none`), either transition
returns the device set completely unchanged — the prior video track is
still present with its live and enabled flags intact. On a successful
acquisition with the refs present, the old head video track is removed
and the new track is attached, live and enabled as acquired: the set is
fully swapped, never half-swapped with the old track stopped and no new
track attached. -/
theorem C7_failed_swap_aborts_cleanly
    (s : DeviceSet) (refs : Bool) (a : List Track) (v : Track) (rest : List Track)
    (t : Track) (sh : Bool) :
    toggleScreenShare s none refs = s ∧
    stopScreenShare s none refs = s ∧
    toggleScreenShare ⟨a, v :: rest, false⟩ (some t) true = ⟨a, rest ++ [t], true⟩ ∧
    stopScreenShare ⟨a, v :: rest, sh⟩ (some t) true = ⟨a, rest ++ [t], false⟩ := by
  refine ⟨?_, rfl, rfl, rfl⟩
  unfold toggleScreenShare stopScreenShare
  cases s.screenSharing <;> rfl

/-- An `AudioContext` slot: whether the corresponding ref
(`inputContextRef` / `audioContextRef`) still holds the context, and
whether the underlying context has been closed. -/
structure CtxSlot where
  refHeld : Bool
  closed : Bool
deriving DecidableEq

/-- A device track as seen by teardown: live until stopped. -/
structure TrackRec where
  live : Bool
deriving DecidableEq

/-- The resources owned by the session, as touched by `cleanup`:
the processor and source node refs, both audio contexts, the media
stream ref with its tracks, the periodic timer (its id ref and whether
an interval is actually installed) and the transport session ref. -/
structure SessionResources where
  processorHeld : Bool
  sourceHeld : Bool
  inputCtx : CtxSlot
  outputCtx : CtxSlot
  streamHeld : Bool
  tracks : List TrackRec
  timerRef : Bool
  timerActive : Bool
  sessionHeld : Bool
deriving DecidableEq

/-- Closing an audio context through its ref, as `cleanup` does: only
when the ref is held; the ref is nulled afterwards. -/
def closeCtx (c : CtxSlot) : CtxSlot :=
  if c.refHeld then { refHeld := false, closed := true } else c

/-- Error-aware closing: `AudioContext.close()` on an already-closed
context fails. `cleanup` never does this because it nulls the ref after
closing, so the guard skips the second close. -/
def closeCtxE (c : CtxSlot) : Except Unit CtxSlot :=
  if c.refHeld then
    if c.closed then .error () else .ok { refHeld := false, closed := true }
  else .ok c

/-- The `cleanup` callback: disconnects and nulls the processor and
source refs, closes and nulls both audio contexts, stops every track of
the media stream (the stream ref itself is kept), clears the interval
timer (its id ref is kept), and drops the session handle. `track.stop()`
and `clearInterval` are no-ops on already-released resources. -/
def cleanup (s : SessionResources) : SessionResources :=
  { processorHeld := false
    sourceHeld := false
    inputCtx := closeCtx s.inputCtx
    outputCtx := closeCtx s.outputCtx
    streamHeld := s.streamHeld
    tracks := if s.streamHeld then s.tracks.map fun _ => ⟨false⟩ else s.tracks
    timerRef := s.timerRef
    timerActive := if s.timerRef then false else s.timerActive
    sessionHeld := false }

/-- `cleanup` with the error-aware context close: the only teardown
operation that can fail on a released resource is re-closing a closed
context, which `cleanup`'s null-check prevents. -/
def cleanupE (s : SessionResources) : Except Unit SessionResources := do
  let ic ← closeCtxE s.inputCtx
  let oc ← closeCtxE s.outputCtx
  .ok { processorHeld := false
        sourceHeld := false
        inputCtx := ic
        outputCtx := oc
        streamHeld := s.streamHeld
        tracks := if s.streamHeld then s.tracks.map fun _ => ⟨false⟩ else s.tracks
        timerRef := s.timerRef
        timerActive := if s.timerRef then false else s.timerActive
        sessionHeld := false }

/-- Claim C8: from any session state whose audio contexts are held and
open, whose media stream ref is held, and where an installed interval
implies its id ref is set (all invariants of the running component),
`cleanup` succeeds without error, invoking it a second time also
succeeds without error and changes nothing (idempotence), and after it
no device track is live, both audio contexts are closed, the periodic
timer is cleared and the session handle is dropped. -/
theorem C8_cleanup_idempotent (s : SessionResources)
    (h1 : s.inputCtx.refHeld = true) (h2 : s.inputCtx.closed = false)
    (h3 : s.outputCtx.refHeld = true) (h4 : s.outputCtx.closed = false)
    (h5 : s.streamHeld = true) (h6 : s.timerActive = true → s.timerRef = true) :
    cleanupE s = .ok (cleanup s) ∧
    cleanupE (cleanup s) = .ok (cleanup s) ∧
    cleanup (cleanup s) = cleanup s ∧
    (∀ t ∈ (cleanup s).tracks, t.live = false) ∧
    (cleanup s).inputCtx.closed = true ∧ (cleanup s).outputCtx.closed = true ∧
    (cleanup s).timerActive = false ∧ (cleanup s).sessionHeld = false := by
  have hin : closeCtx s.inputCtx = ⟨false, true⟩ := by simp [closeCtx, h1]
  have hout : closeCtx s.outputCtx = ⟨false, true⟩ := by simp [closeCtx, h3]
  have hie : closeCtxE s.inputCtx = .ok ⟨false, true⟩ := by simp [closeCtxE, h1, h2]
  have hoe : closeCtxE s.outputCtx = .ok ⟨false, true⟩ := by simp [closeCtxE, h3, h4]
  have hcl : cleanup s = ⟨false, false, ⟨false, true⟩, ⟨false, true⟩, true,
      s.tracks.map fun _ => ⟨false⟩, s.timerRef,
      if s.timerRef then false else s.timerActive, false⟩ := by
    unfold cleanup
    rw [hin, hout, h5]
    simp
  refine ⟨?_, ?_, ?_, ?_, ?_, ?_, ?_, by rw [hcl]⟩
  · unfold cleanupE
    rw [hie, hoe, hcl, h5]
    rfl
  · rw [hcl]
    by_cases h8 : s.timerRef <;>
      (simp [cleanupE, closeCtxE, List.map_map, Function.comp, h8]; rfl)
  · rw [hcl]
    by_cases h8 : s.timerRef <;>
      simp [cleanup, closeCtx, List.map_map, Function.comp, h8]
  · rw [hcl]
    intro t ht
    rcases List.mem_map.mp ht with ⟨u, _, hu⟩
    rw [← hu]
  · rw [hcl]
  · rw [hcl]
  · rw [hcl]
    by_cases h8 : s.timerRef
    · simp [h8]
    · simp only [h8, if_false]
      rcases h9 : s.timerActive with _ | _
      · rfl
      · exact absurd (h6 h9) h8

/-- Witness for C8: a freshly active session with two live tracks, both
contexts open, a running timer and a held session handle. -/
theorem C8_cleanup_idempotent_witness :
    cleanupE ⟨true, true, ⟨true, false⟩, ⟨true, false⟩, true, [⟨true⟩, ⟨true⟩], true, true, true⟩
        = .ok (cleanup ⟨true, true, ⟨true, false⟩, ⟨true, false⟩, true, [⟨true⟩, ⟨true⟩], true, true, true⟩) ∧
    cleanupE (cleanup ⟨true, true, ⟨true, false⟩, ⟨true, false⟩, true, [⟨true⟩, ⟨true⟩], true, true, true⟩)
        = .ok (cleanup ⟨true, true, ⟨true, false⟩, ⟨true, false⟩, true, [⟨true⟩, ⟨true⟩], true, true, true⟩) ∧
    cleanup (cleanup ⟨true, true, ⟨true, false⟩, ⟨true, false⟩, true, [⟨true⟩, ⟨true⟩], true, true, true⟩)
        = cleanup ⟨true, true, ⟨true, false⟩, ⟨true, false⟩, true, [⟨true⟩, ⟨true⟩], true, true, true⟩ ∧
    (∀ t ∈ (cleanup ⟨true, true, ⟨true, false⟩, ⟨true, false⟩, true, [⟨true⟩, ⟨true⟩], true, true, true⟩).tracks,
        t.live = false) ∧
    (cleanup ⟨true, true, ⟨true, false⟩, ⟨true, false⟩, true, [⟨true⟩, ⟨true⟩], true, true, true⟩).inputCtx.closed = true ∧
    (cleanup ⟨true, true, ⟨true, false⟩, ⟨true, false⟩, true, [⟨true⟩, ⟨true⟩], true, true, true⟩).outputCtx.closed = true ∧
    (cleanup ⟨true, true, ⟨true, false⟩, ⟨true, false⟩, true, [⟨true⟩, ⟨true⟩], true, true, true⟩).timerActive = false ∧
    (cleanup ⟨true, true, ⟨true, false⟩, ⟨true, false⟩, true, [⟨true⟩, ⟨true⟩], true, true, true⟩).sessionHeld = false :=
  C8_cleanup_idempotent ⟨true, true, ⟨true, false⟩, ⟨true, false⟩, true, [⟨true⟩, ⟨true⟩], true, true, true⟩
    rfl rfl rfl rfl rfl (fun _ => rfl)

/-- The user configuration handed to `onStart` by the welcome screen. -/
structure UserConfig where
  name : String
  jobRole : String
deriving DecidableEq

/-- JavaScript `String.prototype.trim()`: strip leading and trailing
whitespace (an executable, structurally recursive equivalent of
`String.trim`, which is defined by well-founded recursion and does not
evaluate in the kernel). -/
def jsTrim (s : String) : String :=
  ⟨((s.data.dropWhile Char.isWhitespace).reverse.dropWhile Char.isWhitespace).reverse⟩

/-- The `handleEnter` handler of `WelcomeScreen`: `onStart` is invoked
with the entered name and role exactly when `name.trim()` is truthy,
i.e. nonempty; the returned value is the configuration passed to
`onStart` (`none` when nothing happens). -/
def handleEnter (name jobRole : String) : Option UserConfig :=
  if jsTrim name ≠ "" then some ⟨name, jobRole⟩ else none

/-- Claim C9: the Enter Studio action invokes `onStart` with the entered
name (untrimmed) and job role if and only if the display name is
nonempty after trimming whitespace; for a whitespace-only name nothing
happens. -/
theorem C9_enter_requires_nonblank_name (name jobRole : String) :
    (handleEnter name jobRole = some ⟨name, jobRole⟩ ↔ jsTrim name ≠ "") ∧
    (handleEnter name jobRole = none ↔ jsTrim name = "") := by
  unfold handleEnter
  by_cases h : jsTrim name = "" <;> simp [h]

/-- Witness for C9: a padded name enters the studio with the original
(untrimmed) name; a whitespace-only name does nothing. -/
theorem C9_enter_requires_nonblank_name_witness :
    handleEnter (" Ada ") ("Frontend Developer") = some ⟨" Ada ", "Frontend Developer"⟩ ∧
    handleEnter ("   ") ("Frontend Developer") = none :=
  ⟨(C9_enter_requires_nonblank_name (" Ada ") ("Frontend Developer")).1.mpr (by decide),
   (C9_enter_requires_nonblank_name ("   ") ("Frontend Developer")).2.mpr (by decide)⟩

/-- The broadcast platforms of the destinations modal. -/
inductive StreamPlatform where
  | facebook
  | linkedin
  | youtube
  | instagram
deriving DecidableEq

/-- The `streamConfig` React state. -/
structure StreamConfig where
  isStreaming : Bool
  platform : Option StreamPlatform
  duration : ℕ
deriving DecidableEq

/-- The state touched by `handleGoLive`: the media stream ref, the
recorded chunk list, whether a `MediaRecorder` is created and started,
whether the duration interval is installed, the stream configuration and
the destinations-modal flag. -/
structure LiveState where
  streamHeld : Bool
  recordedChunks : List ℕ
  recorderActive : Bool
  timerInstalled : Bool
  streamConfig : StreamConfig
  showDestinations : Bool
deriving DecidableEq

/-- The `handleGoLive` handler: returns immediately on an empty platform
selection; otherwise (when the stream ref is held) clears the chunk
list, creates and starts a recorder, marks streaming on the first
selected platform with duration 0, installs the duration interval and
hides the destinations modal. -/
def handleGoLive (selectedPlatforms : List StreamPlatform) (s : LiveState) : LiveState :=
  if selectedPlatforms.length = 0 then s
  else if !s.streamHeld then s
  else
    { s with
      recordedChunks := []
      recorderActive := true
      streamConfig := { isStreaming := true, platform := selectedPlatforms.head?, duration := 0 }
      timerInstalled := true
      showDestinations := false }

/-- Claim C10: calling `handleGoLive` with an empty platform list is a
complete no-op: the whole state — recorder, recorded chunks, timer and
stream configuration — is returned unchanged. -/
theorem C10_go_live_empty_platforms_noop (s : LiveState) :
    handleGoLive [] s = s := rfl

end AhmedStudio
